import Mathlib

/-!
Shallow embedding of the sleep-dashboard analytics core
(`app.py`, `src/data.py`, `src/charts.py` of stef4k/sleep-dashboard).

Timestamps are modelled as integers (seconds since the epoch), numeric
cell values as rationals.  Pandas NA values arising from division by
zero are modelled with `Option ℚ`; comparisons against NA are false,
and means skip NA, exactly as pandas does.
-/

set_option maxHeartbeats 1000000

namespace SleepDash

/-- Seconds in one day. -/
def secPerDay : ℤ := 86400

/-- `ts.floor("D")` of pandas: round a timestamp down to midnight. -/
def dayFloorTs (t : ℤ) : ℤ := secPerDay * (t.fdiv secPerDay)

/-- `dt.hour + dt.minute/60.0` of a timestamp (from `data.py` line 27 and
`charts.py` line 1146). -/
def hourOfTs (t : ℤ) : ℚ :=
  (((t.emod secPerDay) / 3600 : ℤ) : ℚ) + ((((t.emod secPerDay) % 3600) / 60 : ℤ) : ℚ) / 60

/-- pandas `dt.dayofweek`: Monday = 0 … Sunday = 6.  Day 0 of the epoch
(1970-01-01) was a Thursday, hence the offset 3. -/
def dayofweek (t : ℤ) : ℤ := Int.emod (t.fdiv secPerDay + 3) 7

/-- The night-continuous wrap used by `bedtime_suggestion_hour` (app.py) and
`bad_sleep_pareto` (charts.py): hours before noon belong to the next day. -/
def wrap_night (h : ℚ) : ℚ := if 12 ≤ h then h else h + 24

/-- Python `x % 24` on rationals (floor-mod, result in `[0,24)`). -/
def fmod24 (x : ℚ) : ℚ := x - 24 * (⌊x / 24⌋ : ℚ)

/-- `a / b.replace(0, NA)` of pandas: `none` exactly when the denominator
is zero. -/
def safeDiv (a b : ℚ) : Option ℚ := if b = 0 then none else some (a / b)

/-- A normalized sleep-session record (one row of the loaded table,
typed fields only; derived fields are functions below). -/
structure SleepRecord where
  date : ℤ
  startTime : ℤ
  endTime : ℤ
  isNightSleep : Bool
  durationMin : ℚ
  minutesAsleep : ℚ
  minutesAwake : ℚ
  efficiency : ℚ
  deepMinutes : ℚ
  lightMinutes : ℚ
  remMinutes : ℚ
  overallScore : ℚ
  restingHeartRate : ℚ
  deriving DecidableEq, Repr

/-- Derived at load (`data.py` line 27): `start_hour`. -/
def SleepRecord.start_hour (r : SleepRecord) : ℚ := hourOfTs r.startTime

/-- Derived at load (`data.py` line 31): `deep_pct = deep_minutes / minutes_asleep.replace(0, NA)`. -/
def SleepRecord.deep_pct (r : SleepRecord) : Option ℚ := safeDiv r.deepMinutes r.minutesAsleep

/-- Derived at load (`data.py` line 32): `rem_pct`. -/
def SleepRecord.rem_pct (r : SleepRecord) : Option ℚ := safeDiv r.remMinutes r.minutesAsleep

/-- Derived at load (`data.py` line 33): `awake_pct = minutes_awake / duration_min.replace(0, NA)`. -/
def SleepRecord.awake_pct (r : SleepRecord) : Option ℚ := safeDiv r.minutesAwake r.durationMin

/-- Derived at load (`data.py` line 36): `sleep_hours`. -/
def SleepRecord.sleep_hours (r : SleepRecord) : ℚ := r.minutesAsleep / 60

/-- `bedtime_suggestion_hour` from app.py (lines 1181–1217), on the
optional last-night record's start hour.  `targetH` and `maxShiftMin`
default to 01:15 and 30 in the source. -/
def bedtime_suggestion_hour (lastH : Option ℚ) (targetH maxShiftMin : ℚ) : Option ℚ :=
  match lastH with
  | none => none
  | some lastHour =>
    let targetWrapped := wrap_night targetH
    let lastWrapped := wrap_night lastHour
    let suggestedWrapped :=
      if lastWrapped ≤ targetWrapped then lastWrapped
      else max (lastWrapped - maxShiftMin / 60) targetWrapped
    some (fmod24 suggestedWrapped)

/-- `nap_recommendation` from app.py (lines 1220–1247).  The Python
`(None, None)` return is modelled as `none`. -/
def nap_recommendation (lastRow : Option SleepRecord) : Option (String × ℕ) :=
  match lastRow with
  | none => none
  | some row =>
    let sleepH := row.minutesAsleep / 60
    let score := row.overallScore
    if ¬ (sleepH < 15/2 ∨ score < 75) then some ("No", 0)
    else if score < 60 ∨ sleepH < 6 then some ("Yes", 45)
    else if score < 70 ∨ sleepH < 13/2 then some ("Yes", 35)
    else some ("Yes", 23)

/-- `window_by_days` from app.py (lines 1139–1143):
`start_ts = end_ts.floor("D") - Timedelta(days=days-1)`, then keep rows
with `start_ts <= date <= end_ts`.  `days` is a Python int, so it may be
zero or negative. -/
def window_by_days (l : List SleepRecord) (endTs : ℤ) (days : ℤ) : List SleepRecord :=
  let startTs := dayFloorTs endTs - secPerDay * (days - 1)
  l.filter (fun r => decide (startTs ≤ r.date) && decide (r.date ≤ endTs))

/-- The `FILTER DAYS` radio choices of app.py. -/
inductive DayType where
  | All
  | Weekdays
  | Weekends
  deriving DecidableEq, Repr

/-- `apply_daytype_filter` from app.py (lines 1145–1151): empty input or
mode `All` is returned unchanged; `Weekdays` keeps `dayofweek < 5`,
otherwise `dayofweek >= 5` is kept. -/
def apply_daytype_filter (l : List SleepRecord) (mode : DayType) : List SleepRecord :=
  if l = [] ∨ mode = DayType.All then l
  else if mode = DayType.Weekdays then l.filter (fun r => decide (dayofweek r.date < 5))
  else l.filter (fun r => decide (5 ≤ dayofweek r.date))

/-- The night-only selection `dfx[dfx["is_night_sleep"] == True]` of app.py. -/
def night_filter (l : List SleepRecord) : List SleepRecord :=
  l.filter (fun r => r.isNightSleep)

/-- The day-of-week predicate of each `FILTER DAYS` mode. -/
def daytypePred : DayType → SleepRecord → Bool
  | DayType.All, _ => true
  | DayType.Weekdays, r => decide (dayofweek r.date < 5)
  | DayType.Weekends, r => decide (5 ≤ dayofweek r.date)

/-- `df.sort_values("start_time").iloc[-1]` on a list: the element with the
greatest `startTime` (the later one wins ties, as for the last row of a
sorted frame). -/
def lastByStart : List SleepRecord → Option SleepRecord
  | [] => none
  | r :: rest => some (rest.foldl (fun a b => if a.startTime ≤ b.startTime then b else a) r)

/-- The app.py dataflow (lines 1154–1178) that produces `last_night`:
`df_all_unfiltered = df[df["date"] <= as_of_ts]`, the day-type filter is
applied only to the chart set `df_all`, while `df_night_all` (and hence
`last_night`) is built from the unfiltered set. -/
def app_last_night (l : List SleepRecord) (asOfTs : ℤ) (dayType : DayType) : Option SleepRecord :=
  let dfAllUnfiltered := l.filter (fun r => decide (r.date ≤ asOfTs))
  let dfAll := apply_daytype_filter dfAllUnfiltered dayType
  let dfNightAll := night_filter dfAllUnfiltered
  let _dfNight := night_filter dfAll
  lastByStart dfNightAll

/-- A raw CSV cell: either a value the external timestamp parser accepts
(modelled by the timestamp it parses to), a plain number, or text the
parser rejects. -/
inductive RawVal where
  | ts (t : ℤ)
  | num (q : ℚ)
  | malformed (s : String)
  deriving DecidableEq, Repr

/-- A raw CSV row: a lookup from column name to cell value. -/
def RawRow : Type := String → RawVal

/-- A raw CSV table: its header and its rows. -/
structure RawTable where
  header : List String
  rows : List RawRow

/-- `REQUIRED_COLS` from data.py (lines 3–9). -/
def REQUIRED_COLS : List String :=
  ["date", "week_day", "is_night_sleep",
   "start_time", "end_time",
   "duration_min", "minutes_asleep", "minutes_awake", "efficiency",
   "deep_minutes", "light_minutes", "rem_minutes",
   "overall_score", "resting_heart_rate"]

/-- `pd.to_datetime(v)` on one cell, as an optional result: the external
parser succeeds exactly on well-formed timestamp values. -/
def parse_ts (v : RawVal) : Option ℤ :=
  match v with
  | .ts t => some t
  | _ => none

/-- The two fatal load failures of data.py: a missing required column
(`ValueError(f"Missing columns: {missing}")`, line 16) or an unparsable
required timestamp (`pd.to_datetime` with default `errors="raise"`,
lines 19–21). -/
inductive LoadError where
  | schemaError (missing : List String)
  | parseError

/-- Parse the three required timestamp columns of one row
(data.py lines 19–21); any failure is fatal. -/
def parseRowTimes (r : RawRow) : Except LoadError (ℤ × ℤ × ℤ) :=
  match parse_ts (r "date"), parse_ts (r "start_time"), parse_ts (r "end_time") with
  | some d, some s, some e => Except.ok (d, s, e)
  | _, _, _ => Except.error LoadError.parseError

/-- Parse the required timestamps of every row; the first failure is
fatal (pandas `to_datetime` with `errors="raise"` raises on the first
bad value of the column). -/
def parseRowsTimes : List RawRow → Except LoadError (List (RawRow × ℤ × ℤ × ℤ))
  | [] => Except.ok []
  | r :: rest =>
    match parseRowTimes r with
    | Except.error e => Except.error e
    | Except.ok p =>
      match parseRowsTimes rest with
      | Except.error e => Except.error e
      | Except.ok ps => Except.ok ((r, p) :: ps)

/-- `load_sleep_csv` from data.py (lines 11–24), up to the typed output:
check the 14 required columns (fatal `SchemaError` naming the missing
ones), then parse the required timestamps of every row (fatal
`ParseError`). -/
def load_sleep_csv (tbl : RawTable) : Except LoadError (List (RawRow × ℤ × ℤ × ℤ)) :=
  let missing := REQUIRED_COLS.filter (fun c => decide (c ∉ tbl.header))
  if missing ≠ [] then Except.error (LoadError.schemaError missing)
  else parseRowsTimes tbl.rows

/-- The caller-side re-parse of app.py (lines 1084–1085):
`pd.to_datetime(df["date"], errors="coerce")` followed by
`dropna(subset=["date"])` — unparsable rows are dropped, nothing raises. -/
def asof_reparse (rows : List RawRow) : List (RawRow × ℤ) :=
  rows.filterMap (fun r => (parse_ts (r "date")).map (fun t => (r, t)))

/-- Mean of a list of rationals (`pandas` `"mean"` aggregation on a
non-empty, NA-free column). -/
def listMean (xs : List ℚ) : ℚ := xs.sum / (xs.length : ℚ)

/-- Mean of an NA-carrying column: pandas skips NA values and yields NA
only when nothing remains. -/
def listMeanOpt (xs : List (Option ℚ)) : Option ℚ :=
  let v := xs.filterMap id
  if v = [] then none else some (v.sum / (v.length : ℚ))

/-- `"min"` aggregation on a timestamp column (0 is never reached: groups
are non-empty). -/
def listMinInt : List ℤ → ℤ
  | [] => 0
  | x :: r => r.foldl min x

/-- One row of the `daily` frame of `bad_sleep_pareto`
(charts.py lines 1131–1144). -/
structure DailyRow where
  day : ℤ
  startTime : ℤ
  minutesAsleep : ℚ
  minutesAwake : ℚ
  durationMin : ℚ
  efficiency : ℚ
  deepPct : Option ℚ
  score : ℚ
  rhr : ℚ
  deriving DecidableEq, Repr

/-- The records attributed to calendar day `d`
(`groupby(d["date"].dt.floor("D"))`). -/
def groupDay (l : List SleepRecord) (d : ℤ) : List SleepRecord :=
  l.filter (fun r => decide (dayFloorTs r.date = d))

/-- The distinct day keys of the group-by, ascending (pandas sorts group
keys; `sort_values("day")` keeps that order). -/
def dayKeys (l : List SleepRecord) : List ℤ :=
  List.insertionSort (fun a b => a ≤ b) ((l.map (fun r => dayFloorTs r.date)).dedup)

/-- The aggregation of charts.py lines 1131–1144: sum the minute fields,
average `efficiency`, `deep_pct`, `overall_score`, `resting_heart_rate`,
take the earliest `start_time`. -/
def aggDay (l : List SleepRecord) (d : ℤ) : DailyRow :=
  { day := d
    startTime := listMinInt ((groupDay l d).map (fun r => r.startTime))
    minutesAsleep := ((groupDay l d).map (fun r => r.minutesAsleep)).sum
    minutesAwake := ((groupDay l d).map (fun r => r.minutesAwake)).sum
    durationMin := ((groupDay l d).map (fun r => r.durationMin)).sum
    efficiency := listMean ((groupDay l d).map (fun r => r.efficiency))
    deepPct := listMeanOpt ((groupDay l d).map SleepRecord.deep_pct)
    score := listMean ((groupDay l d).map (fun r => r.overallScore))
    rhr := listMean ((groupDay l d).map (fun r => r.restingHeartRate)) }

/-- The `daily` frame: one aggregated row per calendar day. -/
def dailyOf (l : List SleepRecord) : List DailyRow :=
  (dayKeys l).map (aggDay l)

/-- `Series.quantile(0.75)` of pandas (linear interpolation on the sorted
values at virtual index `0.75 * (n - 1)`); `none` on an empty series. -/
def quantile75 (l : List ℚ) : Option ℚ :=
  if l = [] then none
  else
    let s := List.insertionSort (fun a b => a ≤ b) l
    let j := (3 * (l.length - 1)) / 4
    let g : ℚ := (((3 * (l.length - 1)) % 4 : ℕ) : ℚ) / 4
    let xj := s.getD j 0
    let xj1 := s.getD (j + 1) xj
    some (xj + g * (xj1 - xj))

/-- `awake_thr` of charts.py line 1147: 75th percentile of daily
minutes-awake over the whole windowed period. -/
def awakeThr (l : List SleepRecord) : Option ℚ :=
  quantile75 ((dailyOf l).map (fun row => row.minutesAwake))

/-- `rhr_thr` of charts.py line 1146: 75th percentile of daily resting
heart rate over the whole windowed period. -/
def rhrThr (l : List SleepRecord) : Option ℚ :=
  quantile75 ((dailyOf l).map (fun row => row.rhr))

/-- `bad = daily[daily["score"] <= score_max]` (charts.py line 1153). -/
def badOf (l : List SleepRecord) (scoreMax : ℚ) : List DailyRow :=
  (dailyOf l).filter (fun row => decide (row.score ≤ scoreMax))

/-- `bad["bed_wrapped"]` (charts.py lines 1158–1160): the wrapped hour of
the day's earliest start time. -/
def bedWrapped (row : DailyRow) : ℚ := wrap_night (hourOfTs row.startTime)

/-- `bad["awake_pct"]` recomputed on the daily sums (charts.py line 1163). -/
def dailyAwakePct (row : DailyRow) : Option ℚ := safeDiv row.minutesAwake row.durationMin

/-- A pandas comparison `x >= thr` where `thr` may be NA: NA compares
false. -/
def geOpt (x : ℚ) (thr : Option ℚ) : Bool :=
  match thr with
  | none => false
  | some t => decide (t ≤ x)

/-- A pandas comparison `s >= c` where the series value may be NA. -/
def optGe (x : Option ℚ) (c : ℚ) : Bool :=
  match x with
  | none => false
  | some v => decide (c ≤ v)

/-- A pandas comparison `s < c` where the series value may be NA. -/
def optLt (x : Option ℚ) (c : ℚ) : Bool :=
  match x with
  | none => false
  | some v => decide (v < c)

/-- The `flags` frame of charts.py lines 1166–1173: the six named boolean
signals of one bad day, in source order. -/
def flagsOf (aThr rThr : Option ℚ) (row : DailyRow) : List (String × Bool) :=
  [("Late bedtime (≥ 02:00)", decide (26 ≤ bedWrapped row)),
   ("Short sleep (< 7h)", decide (row.minutesAsleep / 60 < 7)),
   ("Low efficiency (< 0.85)", decide (row.efficiency < 85/100)),
   ("Woke up a lot (awake high)", geOpt row.minutesAwake aThr || optGe (dailyAwakePct row) (15/100)),
   ("High RHR (relative)", geOpt row.rhr rThr),
   ("Low deep sleep (deep% < 12%)", optLt row.deepPct (12/100))]

/-- The triggered-reason list of one bad day (charts.py lines 1176–1180):
the names of the fired signals, or the catch-all bucket when none fired. -/
def dayReasons (aThr rThr : Option ℚ) (row : DailyRow) : List String :=
  let t := (flagsOf aThr rThr row).filterMap (fun p => if p.2 then some p.1 else none)
  if t = [] then ["Other / unclear"] else t

/-- The flat `long` list of triggered reasons over all bad days
(charts.py lines 1175–1182). -/
def longReasons (l : List SleepRecord) (scoreMax : ℚ) : List String :=
  (((badOf l scoreMax).map (dayReasons (awakeThr l) (rhrThr l)))).flatten

/-- Descending-count order on tally rows. -/
def countGE (a b : String × ℕ) : Prop := b.2 ≤ a.2

instance : DecidableRel countGE := fun a b => inferInstanceAs (Decidable (b.2 ≤ a.2))

instance : IsTotal (String × ℕ) countGE :=
  ⟨fun a b => le_total b.2 a.2⟩

instance : IsTrans (String × ℕ) countGE :=
  ⟨fun _ _ _ h1 h2 => le_trans h2 h1⟩

/-- `value_counts()` + `sort_values("count", ascending=False)`
(charts.py lines 1184–1186): one row per distinct reason with its
multiplicity, ordered by count descending. -/
def paretoCounts (l : List SleepRecord) (scoreMax : ℚ) : List (String × ℕ) :=
  let long := longReasons l scoreMax
  List.insertionSort countGE (long.dedup.map (fun s => (s, long.count s)))

/-- `cum_count`/`cum_pct` (charts.py lines 1186–1187): running cumulative
count divided by the total of the count column. -/
def cumShareRows (total : ℕ) : ℕ → List (String × ℕ) → List (String × ℕ × ℚ)
  | _, [] => []
  | acc, (s, c) :: rest =>
      (s, c, ((acc + c : ℕ) : ℚ) / (total : ℚ)) :: cumShareRows total (acc + c) rest

/-- The final Pareto table: reason, count, cumulative share. -/
def paretoRows (l : List SleepRecord) (scoreMax : ℚ) : List (String × ℕ × ℚ) :=
  let counts := paretoCounts l scoreMax
  cumShareRows ((counts.map (fun p => p.2)).sum) 0 counts

/-- A concrete ordinary night record (day 10 of the epoch, bedtime 23:00
the previous evening), used to instantiate the universally quantified
theorems below. -/
def sampleNight : SleepRecord :=
  { date := 864000
    startTime := 863999 - 3600
    endTime := 864000 + 6 * 3600
    isNightSleep := true
    durationMin := 480
    minutesAsleep := 450
    minutesAwake := 30
    efficiency := 1
    deepMinutes := 90
    lightMinutes := 270
    remMinutes := 90
    overallScore := 80
    restingHeartRate := 55 }

/-- A concrete bad night (score 50, bedtime 03:00, day 0): every one of
the six signals fires for it. -/
def badNight : SleepRecord :=
  { date := 4 * 3600
    startTime := 3 * 3600
    endTime := 10 * 3600
    isNightSleep := true
    durationMin := 360
    minutesAsleep := 300
    minutesAwake := 60
    efficiency := 0
    deepMinutes := 30
    lightMinutes := 210
    remMinutes := 60
    overallScore := 50
    restingHeartRate := 60 }

/-- A concrete degenerate bad night whose `duration_min` (hence the daily
awake fraction's denominator) is zero. -/
def zeroDurationNight : SleepRecord :=
  { date := 0
    startTime := 0
    endTime := 0
    isNightSleep := true
    durationMin := 0
    minutesAsleep := 0
    minutesAwake := 0
    efficiency := 0
    deepMinutes := 0
    lightMinutes := 0
    remMinutes := 0
    overallScore := 50
    restingHeartRate := 60 }

/-- A raw row whose three required timestamps are well formed. -/
def goodRawRow : RawRow :=
  fun c => if c = "date" then RawVal.ts 0
    else if c = "start_time" then RawVal.ts 10
    else if c = "end_time" then RawVal.ts 20
    else RawVal.num 1

/-- A raw row whose `date` cell the timestamp parser rejects. -/
def badDateRawRow : RawRow :=
  fun c => if c = "date" then RawVal.malformed "not-a-date"
    else if c = "start_time" then RawVal.ts 10
    else if c = "end_time" then RawVal.ts 20
    else RawVal.num 1

/-- A raw table missing all required columns except `date`. -/
def tblMissing : RawTable := { header := ["date"], rows := [] }

/-- A raw table with the full schema and one well-formed row. -/
def tblGood : RawTable := { header := REQUIRED_COLS, rows := [goodRawRow] }

/-- A raw table with the full schema and one row whose `date` is
unparsable. -/
def tblBadRow : RawTable := { header := REQUIRED_COLS, rows := [badDateRawRow, goodRawRow] }

/-! ## Helper lemmas -/

theorem fmod24_nonneg (x : ℚ) : 0 ≤ fmod24 x := by
  have h1 : ((⌊x / 24⌋ : ℤ) : ℚ) ≤ x / 24 := Int.floor_le _
  have h2 : 24 * ((⌊x / 24⌋ : ℤ) : ℚ) ≤ 24 * (x / 24) := by linarith
  have h3 : 24 * (x / 24) = x := by ring
  unfold fmod24
  linarith

theorem fmod24_lt_24 (x : ℚ) : fmod24 x < 24 := by
  have h1 : x / 24 < ((⌊x / 24⌋ : ℤ) : ℚ) + 1 := Int.lt_floor_add_one _
  have h2 : 24 * (x / 24) < 24 * (((⌊x / 24⌋ : ℤ) : ℚ) + 1) := by linarith
  have h3 : 24 * (x / 24) = x := by ring
  unfold fmod24
  linarith

theorem dayFloorTs_eq_ediv (t : ℤ) : dayFloorTs t = 86400 * (t / 86400) := by
  unfold dayFloorTs secPerDay
  rw [Int.fdiv_eq_ediv _ (by norm_num)]

theorem fmod24_eq_sub_24 (x : ℚ) (h1 : 24 ≤ x) (h2 : x < 48) : fmod24 x = x - 24 := by
  unfold fmod24
  have hf : ⌊x / 24⌋ = 1 := by
    rw [Int.floor_eq_iff]
    constructor
    · push_cast
      linarith
    · push_cast
      linarith
  rw [hf]
  push_cast
  ring

theorem apply_daytype_filter_eq_filter (l : List SleepRecord) (mode : DayType) :
    apply_daytype_filter l mode = l.filter (daytypePred mode) := by
  cases mode
  · unfold apply_daytype_filter
    rw [if_pos (Or.inr rfl)]
    exact (List.filter_eq_self.mpr fun a _ => rfl).symm
  · by_cases h : l = []
    · subst h
      rfl
    · unfold apply_daytype_filter
      rw [if_neg (by simp [h]), if_pos rfl]
      exact List.filter_congr fun a _ => rfl
  · by_cases h : l = []
    · subst h
      rfl
    · unfold apply_daytype_filter
      rw [if_neg (by simp [h]), if_neg (by simp)]
      exact List.filter_congr fun a _ => rfl

theorem foldlPick_mem (rest : List SleepRecord) (x : SleepRecord) :
    rest.foldl (fun a b => if a.startTime ≤ b.startTime then b else a) x ∈ x :: rest := by
  induction rest generalizing x with
  | nil => simp
  | cons y ys ih =>
    simp only [List.foldl_cons]
    have h := ih (if x.startTime ≤ y.startTime then y else x)
    rcases List.mem_cons.mp h with h1 | h1
    · rw [h1]
      split_ifs
      · simp
      · simp
    · simp [h1]

theorem foldlPick_ge (rest : List SleepRecord) (x : SleepRecord) :
    ∀ s ∈ x :: rest,
      s.startTime ≤ (rest.foldl (fun a b => if a.startTime ≤ b.startTime then b else a) x).startTime := by
  induction rest generalizing x with
  | nil =>
    intro s hs
    rcases List.mem_cons.mp hs with h1 | h1
    · rw [h1]
      exact le_refl _
    · simp at h1
  | cons y ys ih =>
    intro s hs
    simp only [List.foldl_cons]
    have hx : x.startTime ≤ (if x.startTime ≤ y.startTime then y else x).startTime := by
      split_ifs with h
      · exact h
      · exact le_refl _
    have hy : y.startTime ≤ (if x.startTime ≤ y.startTime then y else x).startTime := by
      split_ifs with h
      · exact le_refl _
      · exact le_of_not_le h
    have hacc := ih (if x.startTime ≤ y.startTime then y else x)
    have haccle := hacc _ (List.mem_cons_self _ _)
    rcases List.mem_cons.mp hs with h1 | h1
    · rw [h1]
      exact le_trans hx haccle
    · rcases List.mem_cons.mp h1 with h2 | h2
      · rw [h2]
        exact le_trans hy haccle
      · exact hacc s (List.mem_cons_of_mem _ h2)

theorem parseRowTimes_ok_iff (r : RawRow) :
    (∃ p, parseRowTimes r = Except.ok p) ↔
      ((parse_ts (r "date")).isSome ∧ (parse_ts (r "start_time")).isSome ∧
        (parse_ts (r "end_time")).isSome) := by
  cases h1 : parse_ts (r "date") <;> cases h2 : parse_ts (r "start_time") <;>
    cases h3 : parse_ts (r "end_time") <;> simp [parseRowTimes, h1, h2, h3]

theorem parseRowTimes_err (r : RawRow) (e : LoadError)
    (h : parseRowTimes r = Except.error e) : e = LoadError.parseError := by
  unfold parseRowTimes at h
  cases h1 : parse_ts (r "date") <;> cases h2 : parse_ts (r "start_time") <;>
    cases h3 : parse_ts (r "end_time") <;> rw [h1, h2, h3] at h <;>
    first
    | (injection h with h; exact h.symm)
    | cases h

theorem parseRowsTimes_ok_iff (rows : List RawRow) :
    (∃ out, parseRowsTimes rows = Except.ok out) ↔
      ∀ r ∈ rows, (parse_ts (r "date")).isSome ∧ (parse_ts (r "start_time")).isSome ∧
        (parse_ts (r "end_time")).isSome := by
  induction rows with
  | nil => simp [parseRowsTimes]
  | cons r rest ih =>
    simp only [List.mem_cons]
    constructor
    · rintro ⟨out, hout⟩
      unfold parseRowsTimes at hout
      cases hp : parseRowTimes r with
      | error e => rw [hp] at hout; cases hout
      | ok p =>
        rw [hp] at hout
        cases hrest : parseRowsTimes rest with
        | error e => rw [hrest] at hout; cases hout
        | ok ps =>
          intro s hs
          rcases hs with hs | hs
          · subst hs
            exact (parseRowTimes_ok_iff s).mp ⟨p, hp⟩
          · exact (ih.mp ⟨ps, hrest⟩) s hs
    · intro hall
      obtain ⟨p, hp⟩ := (parseRowTimes_ok_iff r).mpr (hall r (Or.inl rfl))
      obtain ⟨ps, hps⟩ := ih.mpr (fun s hs => hall s (Or.inr hs))
      exact ⟨(r, p) :: ps, by unfold parseRowsTimes; rw [hp, hps]⟩

theorem parseRowsTimes_err (rows : List RawRow) (e : LoadError)
    (h : parseRowsTimes rows = Except.error e) : e = LoadError.parseError := by
  induction rows with
  | nil => cases h
  | cons r rest ih =>
    unfold parseRowsTimes at h
    cases hp : parseRowTimes r with
    | error e1 =>
      rw [hp] at h
      have he : e1 = e := by injection h
      rw [he] at hp
      exact parseRowTimes_err r e hp
    | ok p =>
      rw [hp] at h
      cases hrest : parseRowsTimes rest with
      | error e2 =>
        rw [hrest] at h
        have he : e2 = e := by injection h
        rw [he] at hrest
        exact ih hrest
      | ok ps => rw [hrest] at h; cases h

theorem count_le_one_of_nodup {α} [BEq α] [LawfulBEq α] {L : List α}
    (h : L.Nodup) (a : α) : L.count a ≤ 1 := by
  induction L with
  | nil => simp
  | cons b M ih =>
    rw [List.count_cons]
    have hb := List.nodup_cons.mp h
    by_cases hba : b = a
    · subst hba
      have : List.count b M = 0 := List.count_eq_zero.mpr hb.1
      simp [this]
    · have : (b == a) = false := by simp [hba]
      simp only [this, if_false]
      simpa using ih hb.2

theorem sum_map_add_nat {α} (L : List α) (f g : α → ℕ) :
    (L.map (fun s => f s + g s)).sum = (L.map f).sum + (L.map g).sum := by
  induction L with
  | nil => simp
  | cons b M ih =>
    simp only [List.map_cons, List.sum_cons, ih]
    omega

theorem sum_map_indicator {α} [DecidableEq α] (L : List α) (a : α) (hnd : L.Nodup) :
    (L.map (fun s => if a = s then 1 else 0)).sum = if a ∈ L then 1 else 0 := by
  induction L with
  | nil => simp
  | cons b M ih =>
    have hb := List.nodup_cons.mp hnd
    simp only [List.map_cons, List.sum_cons, List.mem_cons]
    by_cases hab : a = b
    · subst hab
      rw [if_pos rfl, ih hb.2, if_neg hb.1, if_pos (Or.inl rfl)]
    · rw [if_neg hab, ih hb.2]
      by_cases ham : a ∈ M
      · rw [if_pos ham, if_pos (Or.inr ham)]
      · rw [if_neg ham, if_neg (by tauto)]

theorem sum_map_count_dedup (l : List String) :
    (l.dedup.map (fun s => l.count s)).sum = l.length := by
  induction l with
  | nil => simp
  | cons a t ih =>
    have hcnt : ∀ L : List String,
        (L.map (fun s => (a :: t).count s)).sum =
          (L.map (fun s => t.count s)).sum + (L.map (fun s => if a = s then 1 else 0)).sum := by
      intro L
      rw [← sum_map_add_nat]
      refine congrArg _ (List.map_congr_left fun s _ => ?_)
      rw [List.count_cons]
      by_cases has : a = s
      · simp [has]
      · have : (a == s) = false := by simp [has]
        simp [this, has]
    by_cases hmem : a ∈ t
    · rw [List.dedup_cons_of_mem hmem, hcnt, ih,
        sum_map_indicator _ _ (List.nodup_dedup t),
        if_pos (List.mem_dedup.mpr hmem)]
      simp
    · rw [List.dedup_cons_of_not_mem hmem]
      simp only [List.map_cons, List.sum_cons]
      rw [hcnt, ih, sum_map_indicator _ _ (List.nodup_dedup t),
        if_neg (fun h => hmem (List.mem_dedup.mp h)), List.count_cons,
        List.count_eq_zero.mpr hmem]
      simp only [beq_self_eq_true, if_true, List.length_cons]
      omega

theorem filterMap_if_sublist {β} (L : List (β × Bool)) :
    (L.filterMap (fun p => if p.2 then some p.1 else none)).Sublist (L.map Prod.fst) := by
  induction L with
  | nil => simp
  | cons p M ih =>
    obtain ⟨s, b⟩ := p
    cases b
    · exact ih.cons s
    · exact ih.cons₂ s

theorem dayReasons_eq (aThr rThr : Option ℚ) (row : DailyRow) :
    dayReasons aThr rThr row =
      if (flagsOf aThr rThr row).filterMap (fun p => if p.2 = true then some p.1 else none) = []
      then ["Other / unclear"]
      else (flagsOf aThr rThr row).filterMap (fun p => if p.2 = true then some p.1 else none) :=
  rfl

theorem dayReasons_nodup (aThr rThr : Option ℚ) (row : DailyRow) :
    (dayReasons aThr rThr row).Nodup := by
  rw [dayReasons_eq]
  split_ifs with h
  · simp
  · have hsub := filterMap_if_sublist (flagsOf aThr rThr row)
    have hnames : ((flagsOf aThr rThr row).map Prod.fst).Nodup := by
      show (["Late bedtime (≥ 02:00)", "Short sleep (< 7h)", "Low efficiency (< 0.85)",
        "Woke up a lot (awake high)", "High RHR (relative)",
        "Low deep sleep (deep% < 12%)"] : List String).Nodup
      decide
    exact hsub.nodup hnames

theorem dayReasons_ne_nil (aThr rThr : Option ℚ) (row : DailyRow) :
    dayReasons aThr rThr row ≠ [] := by
  rw [dayReasons_eq]
  split_ifs with h
  · simp
  · exact h

theorem count_longReasons_le (l : List SleepRecord) (sMax : ℚ) (s : String) :
    (longReasons l sMax).count s ≤ (badOf l sMax).length := by
  unfold longReasons
  rw [List.count_flatten, List.map_map]
  have hle : ∀ n ∈ ((badOf l sMax).map
      (List.count s ∘ dayReasons (awakeThr l) (rhrThr l))), n ≤ 1 := by
    intro n hn
    obtain ⟨row, _, hrow⟩ := List.mem_map.mp hn
    rw [← hrow]
    exact count_le_one_of_nodup (dayReasons_nodup _ _ row) s
  calc ((badOf l sMax).map (List.count s ∘ dayReasons (awakeThr l) (rhrThr l))).sum
      ≤ ((badOf l sMax).map (List.count s ∘ dayReasons (awakeThr l) (rhrThr l))).length • 1 :=
        List.sum_le_card_nsmul _ 1 hle
    _ = (badOf l sMax).length := by simp

theorem length_longReasons_ge (l : List SleepRecord) (sMax : ℚ) :
    (badOf l sMax).length ≤ (longReasons l sMax).length := by
  unfold longReasons
  rw [List.length_flatten, List.map_map]
  have hge : ∀ n ∈ ((badOf l sMax).map
      (List.length ∘ dayReasons (awakeThr l) (rhrThr l))), 1 ≤ n := by
    intro n hn
    obtain ⟨row, _, hrow⟩ := List.mem_map.mp hn
    rw [← hrow]
    exact List.length_pos.mpr (dayReasons_ne_nil _ _ row)
  calc (badOf l sMax).length
      = ((badOf l sMax).map (List.length ∘ dayReasons (awakeThr l) (rhrThr l))).length • 1 := by
        simp
    _ ≤ ((badOf l sMax).map (List.length ∘ dayReasons (awakeThr l) (rhrThr l))).sum :=
        List.card_nsmul_le_sum _ 1 hge

theorem paretoCounts_sum (l : List SleepRecord) (sMax : ℚ) :
    ((paretoCounts l sMax).map (fun p => p.2)).sum = (longReasons l sMax).length := by
  unfold paretoCounts
  have hperm := List.perm_insertionSort countGE
    ((longReasons l sMax).dedup.map (fun s => (s, (longReasons l sMax).count s)))
  rw [(hperm.map (fun p => p.2)).sum_eq, List.map_map]
  exact sum_map_count_dedup (longReasons l sMax)

theorem cumShareRows_map (T : ℕ) (cs : List (String × ℕ)) :
    ∀ acc : ℕ, (cumShareRows T acc cs).map (fun x => (x.1, x.2.1)) = cs := by
  induction cs with
  | nil => intro acc; rfl
  | cons c rest ih =>
    intro acc
    simp only [cumShareRows, List.map_cons, ih]

theorem cumShareRows_lb (T : ℕ) (hT : 0 < T) (cs : List (String × ℕ)) :
    ∀ acc : ℕ, ∀ x ∈ cumShareRows T acc cs, ((acc : ℚ)) / (T : ℚ) ≤ x.2.2 := by
  induction cs with
  | nil => intro acc x hx; cases hx
  | cons c rest ih =>
    intro acc x hx
    have hTQ : (0 : ℚ) < (T : ℚ) := by exact_mod_cast hT
    rcases List.mem_cons.mp hx with hx | hx
    · rw [hx]
      apply div_le_div_of_nonneg_right ?_ hTQ.le
      exact_mod_cast Nat.le_add_right acc c.2
    · refine le_trans ?_ (ih (acc + c.2) x hx)
      apply div_le_div_of_nonneg_right ?_ hTQ.le
      exact_mod_cast Nat.le_add_right acc c.2

theorem cumShareRows_pairwise (T : ℕ) (hT : 0 < T) (cs : List (String × ℕ)) :
    ∀ acc : ℕ, List.Pairwise (fun a b => a.2.2 ≤ b.2.2) (cumShareRows T acc cs) := by
  induction cs with
  | nil => intro acc; exact List.Pairwise.nil
  | cons c rest ih =>
    intro acc
    refine List.Pairwise.cons ?_ (ih (acc + c.2))
    intro x hx
    exact cumShareRows_lb T hT rest (acc + c.2) x hx

theorem cumShareRows_bounds (T : ℕ) (hT : 0 < T) (cs : List (String × ℕ)) :
    ∀ acc : ℕ, acc + (cs.map (fun p => p.2)).sum ≤ T →
      ∀ x ∈ cumShareRows T acc cs, 0 ≤ x.2.2 ∧ x.2.2 ≤ 1 := by
  induction cs with
  | nil => intro acc _ x hx; cases hx
  | cons c rest ih =>
    intro acc hacc x hx
    have hTQ : (0 : ℚ) < (T : ℚ) := by exact_mod_cast hT
    rcases List.mem_cons.mp hx with hx | hx
    · rw [hx]
      constructor
      · positivity
      · rw [div_le_one hTQ]
        have : acc + c.2 ≤ T := by
          simp only [List.map_cons, List.sum_cons] at hacc
          omega
        exact_mod_cast this
    · refine ih (acc + c.2) ?_ x hx
      simp only [List.map_cons, List.sum_cons] at hacc
      omega

theorem cumShareRows_ne_nil (T acc : ℕ) (c : String × ℕ) (rest : List (String × ℕ)) :
    cumShareRows T acc (c :: rest) ≠ [] := by
  simp [cumShareRows]

theorem cumShareRows_last (T : ℕ) (cs : List (String × ℕ)) :
    ∀ acc : ℕ, ∀ x, (cumShareRows T acc cs).getLast? = some x →
      x.2.2 = ((acc + (cs.map (fun p => p.2)).sum : ℕ) : ℚ) / (T : ℚ) := by
  induction cs with
  | nil => intro acc x hx; cases hx
  | cons c rest ih =>
    intro acc x hx
    cases rest with
    | nil =>
      simp only [cumShareRows, List.getLast?_singleton, Option.some.injEq] at hx
      rw [← hx]
      simp
    | cons c2 rest2 =>
      have hx2 : (cumShareRows T (acc + c.2) (c2 :: rest2)).getLast? = some x := by
        cases hcr : cumShareRows T (acc + c.2) (c2 :: rest2) with
        | nil => exact absurd hcr (cumShareRows_ne_nil T (acc + c.2) c2 rest2)
        | cons y ys =>
          rw [show cumShareRows T acc (c :: c2 :: rest2) =
            (c.1, c.2, ((acc + c.2 : ℕ) : ℚ) / (T : ℚ)) :: cumShareRows T (acc + c.2) (c2 :: rest2)
            from rfl, hcr, List.getLast?_cons_cons] at hx
          exact hx
      have := ih (acc + c.2) x hx2
      rw [this]
      congr 1
      push_cast
      simp only [List.map_cons, List.sum_cons]
      push_cast
      ring

/-! ## Claim theorems -/

/-- C1: for a last-night record with observed bedtime hour `h ∈ [0,24)`,
with the target 01:15 (wrapped 25.25) and `max_shift_minutes = 30`,
`bedtime_suggestion_hour` keeps `wrap h` (mod 24) when `wrap h ≤ 25.25`,
otherwise shifts earlier by at most half an hour clamped at the target;
the result is in `[0,24)`, and `none` is returned exactly when there is
no last night. -/
theorem bedtime_suggestion_hour_spec (h : ℚ) (h0 : 0 ≤ h) (h24 : h < 24) :
    bedtime_suggestion_hour (some h) (1 + 15/60) 30 =
      some (if wrap_night h ≤ 101/4 then fmod24 (wrap_night h)
            else fmod24 (max (wrap_night h - 1/2) (101/4))) ∧
    (∀ v, bedtime_suggestion_hour (some h) (1 + 15/60) 30 = some v → 0 ≤ v ∧ v < 24) ∧
    bedtime_suggestion_hour (none : Option ℚ) (1 + 15/60) 30 = none := by
  have ht : wrap_night (1 + 15/60) = 101/4 := by norm_num [wrap_night]
  have h30 : (30 : ℚ) / 60 = 1/2 := by norm_num
  refine ⟨?_, ?_, rfl⟩
  · simp only [bedtime_suggestion_hour, ht, h30]
    rw [apply_ite fmod24]
  · intro v hv
    simp only [bedtime_suggestion_hour, Option.some.injEq] at hv
    rw [← hv]
    exact ⟨fmod24_nonneg _, fmod24_lt_24 _⟩

/-- Witness for C1, at last bedtime 03:00: the suggestion is 02:30. -/
theorem bedtime_suggestion_hour_spec_witness :
    ((0:ℚ) ≤ 3 ∧ (3:ℚ) < 24) ∧
    (bedtime_suggestion_hour (some 3) (1 + 15/60) 30 =
      some (if wrap_night 3 ≤ 101/4 then fmod24 (wrap_night 3)
            else fmod24 (max (wrap_night 3 - 1/2) (101/4))) ∧
     (∀ v, bedtime_suggestion_hour (some 3) (1 + 15/60) 30 = some v → 0 ≤ v ∧ v < 24) ∧
     bedtime_suggestion_hour (none : Option ℚ) (1 + 15/60) 30 = none) ∧
    bedtime_suggestion_hour (some 3) (1 + 15/60) 30 = some (5/2) :=
  ⟨⟨by norm_num, by norm_num⟩,
   bedtime_suggestion_hour_spec 3 (by norm_num) (by norm_num),
   by
    have h1 : wrap_night (3:ℚ) = 27 := by norm_num [wrap_night]
    have h2 : wrap_night (1 + 15/60 : ℚ) = 101/4 := by norm_num [wrap_night]
    have hmax : ((27:ℚ) - 30/60) ⊔ (101/4) = 53/2 := by
      rw [max_eq_left (by norm_num)]
      norm_num
    simp only [bedtime_suggestion_hour, h1, h2]
    rw [if_neg (by norm_num), hmax, fmod24_eq_sub_24 (53/2) (by norm_num) (by norm_num)]
    norm_num⟩

/-- C2: `nap_recommendation` returns `("No", 0)` exactly when
`sleep_hours ≥ 7.5` and `score ≥ 75`, otherwise the 45/35/23-minute
tiers in priority order, and `none` (the Python `(None, None)`) exactly
when there is no last night. -/
theorem nap_recommendation_spec (row : SleepRecord) :
    nap_recommendation (some row) =
      (if 15/2 ≤ row.minutesAsleep / 60 ∧ 75 ≤ row.overallScore then some ("No", 0)
       else if row.overallScore < 60 ∨ row.minutesAsleep / 60 < 6 then some ("Yes", 45)
       else if row.overallScore < 70 ∨ row.minutesAsleep / 60 < 13/2 then some ("Yes", 35)
       else some ("Yes", 23)) ∧
    nap_recommendation (none : Option SleepRecord) = none := by
  refine ⟨?_, rfl⟩
  simp only [nap_recommendation, not_or, not_lt]

/-- C10: the window selection called with `lookback_days ≤ 0` returns the
empty set (and, being a total function, cannot raise): the start bound
lies strictly after the end bound. -/
theorem window_by_days_nonpos (l : List SleepRecord) (endTs k : ℤ) (hk : k ≤ 0) :
    window_by_days l endTs k = [] ∧
    endTs < dayFloorTs endTs - secPerDay * (k - 1) := by
  have hfd := dayFloorTs_eq_ediv endTs
  have hbound : endTs < dayFloorTs endTs - secPerDay * (k - 1) := by
    rw [hfd]
    unfold secPerDay
    omega
  refine ⟨?_, hbound⟩
  unfold window_by_days
  rw [List.filter_eq_nil_iff]
  intro r _
  simp only [Bool.and_eq_true, decide_eq_true_eq, not_and, not_le]
  intro hstart
  linarith

/-- Witness for C10 at `lookback_days = 0`. -/
theorem window_by_days_nonpos_witness :
    (0 : ℤ) ≤ 0 ∧
    (window_by_days [sampleNight] 864050 0 = [] ∧
     864050 < dayFloorTs 864050 - secPerDay * (0 - 1)) :=
  ⟨le_refl 0, window_by_days_nonpos [sampleNight] 864050 0 (le_refl 0)⟩

/-- C5: the window holds exactly the records whose date lies in
`[floor(as_of) - (lookback-1) days, end_of(as_of)]`; with lookback 1 it
holds exactly the records of the as-of calendar day, and the windows are
nested as the lookback grows. -/
theorem window_by_days_spec (l : List SleepRecord) (endTs k : ℤ) (r : SleepRecord)
    (hEnd : endTs % secPerDay = secPerDay - 1) (hk : 1 ≤ k) :
    (r ∈ window_by_days l endTs k ↔
      r ∈ l ∧ dayFloorTs endTs - secPerDay * (k - 1) ≤ r.date ∧ r.date ≤ endTs) ∧
    (r ∈ window_by_days l endTs 1 ↔ r ∈ l ∧ dayFloorTs r.date = dayFloorTs endTs) ∧
    (2 ≤ k → r ∈ window_by_days l endTs (k - 1) → r ∈ window_by_days l endTs k) := by
  refine ⟨?_, ?_, ?_⟩
  · simp [window_by_days]
  · simp only [window_by_days, List.mem_filter, Bool.and_eq_true, decide_eq_true_eq]
    refine and_congr_right fun _ => ?_
    rw [dayFloorTs_eq_ediv, dayFloorTs_eq_ediv]
    simp only [secPerDay] at hEnd ⊢
    omega
  · intro _ hmem
    simp only [window_by_days, List.mem_filter, Bool.and_eq_true, decide_eq_true_eq] at hmem ⊢
    refine ⟨hmem.1, ?_, hmem.2.2⟩
    have h1 := hmem.2.1
    simp only [secPerDay] at h1 ⊢
    omega

/-- Witness for C5 on a one-record set, as-of the end of epoch day 10,
lookback 2 days. -/
theorem window_by_days_spec_witness :
    ((950399 : ℤ) % secPerDay = secPerDay - 1 ∧ (1:ℤ) ≤ 2) ∧
    ((sampleNight ∈ window_by_days [sampleNight] 950399 2 ↔
      sampleNight ∈ [sampleNight] ∧
        dayFloorTs 950399 - secPerDay * (2 - 1) ≤ sampleNight.date ∧
        sampleNight.date ≤ 950399) ∧
     (sampleNight ∈ window_by_days [sampleNight] 950399 1 ↔
      sampleNight ∈ [sampleNight] ∧ dayFloorTs sampleNight.date = dayFloorTs 950399) ∧
     ((2:ℤ) ≤ 2 → sampleNight ∈ window_by_days [sampleNight] 950399 (2 - 1) →
      sampleNight ∈ window_by_days [sampleNight] 950399 2)) ∧
    sampleNight ∈ window_by_days [sampleNight] 950399 2 :=
  ⟨⟨by decide, by norm_num⟩,
   window_by_days_spec [sampleNight] 950399 2 sampleNight (by decide) (by norm_num),
   by decide⟩

/-- C6: the "last night" record of the app pipeline is independent of the
day-type filter, and it is a night record of the raw set, dated no later
than the as-of timestamp, with the greatest start time among all such
records. -/
theorem app_last_night_spec (l : List SleepRecord) (asOfTs : ℤ) (dt : DayType)
    (r : SleepRecord) (hr : app_last_night l asOfTs DayType.All = some r) :
    app_last_night l asOfTs dt = app_last_night l asOfTs DayType.All ∧
    r ∈ l ∧ r.isNightSleep = true ∧ r.date ≤ asOfTs ∧
    ∀ s ∈ l, s.isNightSleep = true → s.date ≤ asOfTs → s.startTime ≤ r.startTime := by
  have hpipe : ∀ m : DayType, app_last_night l asOfTs m =
      lastByStart (night_filter (l.filter (fun x => decide (x.date ≤ asOfTs)))) := by
    intro m
    rfl
  refine ⟨(hpipe dt).trans (hpipe DayType.All).symm, ?_⟩
  rw [hpipe DayType.All] at hr
  cases hm : night_filter (l.filter (fun x => decide (x.date ≤ asOfTs))) with
  | nil => rw [hm] at hr; cases hr
  | cons x rest =>
    rw [hm] at hr
    unfold lastByStart at hr
    have hreq : rest.foldl (fun a b => if a.startTime ≤ b.startTime then b else a) x = r := by
      injection hr
    have hmem0 : r ∈ night_filter (l.filter (fun x => decide (x.date ≤ asOfTs))) := by
      rw [hm, ← hreq]
      exact foldlPick_mem rest x
    have hmem : r ∈ l ∧ r.isNightSleep = true ∧ r.date ≤ asOfTs := by
      simp only [night_filter, List.mem_filter, decide_eq_true_eq] at hmem0
      exact ⟨hmem0.1.1, hmem0.2, hmem0.1.2⟩
    refine ⟨hmem.1, hmem.2.1, hmem.2.2, ?_⟩
    intro s hs hnight hdate
    have hsmem : s ∈ night_filter (l.filter (fun x => decide (x.date ≤ asOfTs))) := by
      simp only [night_filter, List.mem_filter, decide_eq_true_eq]
      exact ⟨⟨hs, hdate⟩, hnight⟩
    rw [hm] at hsmem
    rw [← hreq]
    exact foldlPick_ge rest x s hsmem

/-- Witness for C6: with a two-record set the pipeline returns the later
night for every day-type mode. -/
theorem app_last_night_spec_witness :
    app_last_night [badNight, sampleNight] 1000000 DayType.All = some sampleNight ∧
    (app_last_night [badNight, sampleNight] 1000000 DayType.Weekends =
      app_last_night [badNight, sampleNight] 1000000 DayType.All ∧
     sampleNight ∈ [badNight, sampleNight] ∧ sampleNight.isNightSleep = true ∧
     sampleNight.date ≤ 1000000 ∧
     ∀ s ∈ [badNight, sampleNight], s.isNightSleep = true → s.date ≤ 1000000 →
       s.startTime ≤ sampleNight.startTime) :=
  ⟨by decide,
   app_last_night_spec [badNight, sampleNight] 1000000 DayType.Weekends sampleNight (by decide)⟩

/-- C7: the day-type filter is idempotent and commutes with the date
window and with the night-only filter. -/
theorem filter_algebra (l : List SleepRecord) (mode : DayType) (endTs k : ℤ) :
    apply_daytype_filter (apply_daytype_filter l mode) mode = apply_daytype_filter l mode ∧
    apply_daytype_filter (window_by_days l endTs k) mode =
      window_by_days (apply_daytype_filter l mode) endTs k ∧
    apply_daytype_filter (night_filter l) mode = night_filter (apply_daytype_filter l mode) := by
  refine ⟨?_, ?_, ?_⟩
  · rw [apply_daytype_filter_eq_filter, apply_daytype_filter_eq_filter,
      List.filter_filter]
    exact List.filter_congr fun a _ => Bool.and_self _
  · rw [apply_daytype_filter_eq_filter, apply_daytype_filter_eq_filter]
    unfold window_by_days
    rw [List.filter_filter, List.filter_filter]
    exact List.filter_congr fun a _ => Bool.and_comm _ _
  · rw [apply_daytype_filter_eq_filter, apply_daytype_filter_eq_filter]
    unfold night_filter
    rw [List.filter_filter, List.filter_filter]
    exact List.filter_congr fun a _ => Bool.and_comm _ _

/-- C8: loading fails fatally with a `SchemaError` naming the missing
columns whenever any required column is absent, and fails with a
`ParseError` when a required timestamp is unparsable; the caller-side
as-of re-parse instead drops unparsable rows and never fails. -/
theorem load_error_asymmetry (tbl : RawTable) :
    (REQUIRED_COLS.filter (fun c => decide (c ∉ tbl.header)) ≠ [] →
      load_sleep_csv tbl = Except.error (LoadError.schemaError
        (REQUIRED_COLS.filter (fun c => decide (c ∉ tbl.header))))) ∧
    (REQUIRED_COLS.filter (fun c => decide (c ∉ tbl.header)) = [] →
      ((∃ out, load_sleep_csv tbl = Except.ok out) ↔
        ∀ r ∈ tbl.rows, (parse_ts (r "date")).isSome ∧ (parse_ts (r "start_time")).isSome ∧
          (parse_ts (r "end_time")).isSome)) ∧
    (REQUIRED_COLS.filter (fun c => decide (c ∉ tbl.header)) = [] →
      ¬ (∀ r ∈ tbl.rows, (parse_ts (r "date")).isSome ∧ (parse_ts (r "start_time")).isSome ∧
          (parse_ts (r "end_time")).isSome) →
      load_sleep_csv tbl = Except.error LoadError.parseError) ∧
    (∀ p ∈ asof_reparse tbl.rows, p.1 ∈ tbl.rows ∧ parse_ts (p.1 "date") = some p.2) ∧
    (∀ r ∈ tbl.rows, ∀ t, parse_ts (r "date") = some t → (r, t) ∈ asof_reparse tbl.rows) := by
  refine ⟨?_, ?_, ?_, ?_, ?_⟩
  · intro hmiss
    unfold load_sleep_csv
    rw [if_pos hmiss]
  · intro hmiss
    unfold load_sleep_csv
    rw [if_neg (not_not_intro hmiss)]
    exact parseRowsTimes_ok_iff tbl.rows
  · intro hmiss hbad
    unfold load_sleep_csv
    rw [if_neg (not_not_intro hmiss)]
    cases hres : parseRowsTimes tbl.rows with
    | error e => rw [parseRowsTimes_err tbl.rows e hres]
    | ok out => exact absurd ((parseRowsTimes_ok_iff tbl.rows).mp ⟨out, hres⟩) hbad
  · intro p hp
    unfold asof_reparse at hp
    obtain ⟨r, hr, hmap⟩ := List.mem_filterMap.mp hp
    cases hparse : parse_ts (r "date") with
    | none => rw [hparse] at hmap; cases hmap
    | some t =>
      rw [hparse] at hmap
      simp only [Option.map_some', Option.some.injEq] at hmap
      rw [← hmap]
      exact ⟨hr, hparse⟩
  · intro r hr t hparse
    unfold asof_reparse
    refine List.mem_filterMap.mpr ⟨r, hr, ?_⟩
    rw [hparse]
    rfl

/-- Witness for C8: a table missing 13 of the 14 required columns is
rejected naming exactly those columns; a full-schema table with an
unparsable `date` is a fatal `ParseError`; a well-formed table loads;
and the as-of re-parse of the bad-row table keeps exactly the parsable
row. -/
theorem load_error_asymmetry_witness :
    (REQUIRED_COLS.filter (fun c => decide (c ∉ tblMissing.header)) =
      ["week_day", "is_night_sleep", "start_time", "end_time", "duration_min",
       "minutes_asleep", "minutes_awake", "efficiency", "deep_minutes",
       "light_minutes", "rem_minutes", "overall_score", "resting_heart_rate"]) ∧
    load_sleep_csv tblMissing = Except.error (LoadError.schemaError
      (REQUIRED_COLS.filter (fun c => decide (c ∉ tblMissing.header)))) ∧
    load_sleep_csv tblBadRow = Except.error LoadError.parseError ∧
    (∃ out, load_sleep_csv tblGood = Except.ok out) ∧
    (goodRawRow, (0 : ℤ)) ∈ asof_reparse tblBadRow.rows :=
  ⟨by decide,
   (load_error_asymmetry tblMissing).1 (by decide),
   (load_error_asymmetry tblBadRow).2.2.1 (by decide)
     (by
       intro hall
       have h := (hall badDateRawRow (List.mem_cons_self _ _)).1
       simp [badDateRawRow, parse_ts] at h),
   ((load_error_asymmetry tblGood).2.1 (by decide)).mpr
     (by
       intro r hr
       have : r = goodRawRow := by
         rcases List.mem_cons.mp hr with h | h
         · exact h
         · simp at h
       rw [this]
       exact ⟨rfl, rfl, rfl⟩),
   (load_error_asymmetry tblBadRow).2.2.2.2 goodRawRow
     (List.mem_cons_of_mem _ (List.mem_cons_self _ _)) 0 rfl⟩

theorem mem_badOf_badNight : aggDay [badNight] 0 ∈ badOf [badNight] 75 := by
  have hkeys : dayKeys [badNight] = [0] := by decide
  have hgroup : groupDay [badNight] 0 = [badNight] := by decide
  have hscore : (aggDay [badNight] 0).score = 50 := by
    show listMean ((groupDay [badNight] 0).map (fun r => r.overallScore)) = 50
    rw [hgroup]
    norm_num [listMean, badNight]
  refine List.mem_filter.mpr ⟨?_, ?_⟩
  · rw [dailyOf, hkeys]
    exact List.mem_singleton.mpr rfl
  · rw [decide_eq_true_eq, hscore]
    norm_num

/-- C3: every bad day of the analyzer is an aggregated daily row (minute
fields summed, rate fields averaged with NA skipped, earliest start
time), the two relative thresholds are 75th percentiles over the whole
windowed period, and the six signals are exactly the stated rules. -/
theorem bad_pareto_signal_rules (l : List SleepRecord) (sMax : ℚ) (row : DailyRow)
    (hrow : row ∈ badOf l sMax) :
    row.score ≤ sMax ∧
    (∃ d ∈ dayKeys l, row = aggDay l d) ∧
    (∀ d, aggDay l d =
      { day := d
        startTime := listMinInt ((groupDay l d).map (fun r => r.startTime))
        minutesAsleep := ((groupDay l d).map (fun r => r.minutesAsleep)).sum
        minutesAwake := ((groupDay l d).map (fun r => r.minutesAwake)).sum
        durationMin := ((groupDay l d).map (fun r => r.durationMin)).sum
        efficiency := listMean ((groupDay l d).map (fun r => r.efficiency))
        deepPct := listMeanOpt ((groupDay l d).map SleepRecord.deep_pct)
        score := listMean ((groupDay l d).map (fun r => r.overallScore))
        rhr := listMean ((groupDay l d).map (fun r => r.restingHeartRate)) }) ∧
    awakeThr l = quantile75 ((dailyOf l).map (fun x => x.minutesAwake)) ∧
    rhrThr l = quantile75 ((dailyOf l).map (fun x => x.rhr)) ∧
    flagsOf (awakeThr l) (rhrThr l) row =
      [("Late bedtime (≥ 02:00)", decide (26 ≤ wrap_night (hourOfTs row.startTime))),
       ("Short sleep (< 7h)", decide (row.minutesAsleep / 60 < 7)),
       ("Low efficiency (< 0.85)", decide (row.efficiency < 85/100)),
       ("Woke up a lot (awake high)",
         geOpt row.minutesAwake (awakeThr l) ||
           optGe (safeDiv row.minutesAwake row.durationMin) (15/100)),
       ("High RHR (relative)", geOpt row.rhr (rhrThr l)),
       ("Low deep sleep (deep% < 12%)", optLt row.deepPct (12/100))] := by
  have h1 := List.mem_filter.mp hrow
  refine ⟨by simpa using h1.2, ?_, fun d => rfl, rfl, rfl, rfl⟩
  obtain ⟨d, hd, hagg⟩ := List.mem_map.mp h1.1
  exact ⟨d, hd, hagg.symm⟩

/-- Witness for C3: the single-record window around `badNight` yields a
bad day satisfying all six rules. -/
theorem bad_pareto_signal_rules_witness :
    aggDay [badNight] 0 ∈ badOf [badNight] 75 ∧
    ((aggDay [badNight] 0).score ≤ 75 ∧
     (∃ d ∈ dayKeys [badNight], aggDay [badNight] 0 = aggDay [badNight] d) ∧
     (∀ d, aggDay [badNight] d =
       { day := d
         startTime := listMinInt ((groupDay [badNight] d).map (fun r => r.startTime))
         minutesAsleep := ((groupDay [badNight] d).map (fun r => r.minutesAsleep)).sum
         minutesAwake := ((groupDay [badNight] d).map (fun r => r.minutesAwake)).sum
         durationMin := ((groupDay [badNight] d).map (fun r => r.durationMin)).sum
         efficiency := listMean ((groupDay [badNight] d).map (fun r => r.efficiency))
         deepPct := listMeanOpt ((groupDay [badNight] d).map SleepRecord.deep_pct)
         score := listMean ((groupDay [badNight] d).map (fun r => r.overallScore))
         rhr := listMean ((groupDay [badNight] d).map (fun r => r.restingHeartRate)) }) ∧
     awakeThr [badNight] = quantile75 ((dailyOf [badNight]).map (fun x => x.minutesAwake)) ∧
     rhrThr [badNight] = quantile75 ((dailyOf [badNight]).map (fun x => x.rhr)) ∧
     flagsOf (awakeThr [badNight]) (rhrThr [badNight]) (aggDay [badNight] 0) =
       [("Late bedtime (≥ 02:00)",
          decide (26 ≤ wrap_night (hourOfTs (aggDay [badNight] 0).startTime))),
        ("Short sleep (< 7h)", decide ((aggDay [badNight] 0).minutesAsleep / 60 < 7)),
        ("Low efficiency (< 0.85)", decide ((aggDay [badNight] 0).efficiency < 85/100)),
        ("Woke up a lot (awake high)",
          geOpt (aggDay [badNight] 0).minutesAwake (awakeThr [badNight]) ||
            optGe (safeDiv (aggDay [badNight] 0).minutesAwake
              (aggDay [badNight] 0).durationMin) (15/100)),
        ("High RHR (relative)", geOpt (aggDay [badNight] 0).rhr (rhrThr [badNight])),
        ("Low deep sleep (deep% < 12%)", optLt (aggDay [badNight] 0).deepPct (12/100))]) :=
  ⟨mem_badOf_badNight,
   bad_pareto_signal_rules [badNight] 75 (aggDay [badNight] 0) mem_badOf_badNight⟩

/-- C4: for a non-empty bad-day set, every tally row has a positive
count bounded by the number of bad days, the total tally is at least the
number of bad days, rows are ordered by count descending, and the
cumulative share is nondecreasing, lies in `[0,1]`, and ends at 1. -/
theorem pareto_tally_invariants (l : List SleepRecord) (sMax : ℚ)
    (hne : badOf l sMax ≠ []) :
    (∀ p ∈ paretoCounts l sMax, 1 ≤ p.2 ∧ p.2 ≤ (badOf l sMax).length) ∧
    (badOf l sMax).length ≤ ((paretoCounts l sMax).map (fun p => p.2)).sum ∧
    List.Sorted countGE (paretoCounts l sMax) ∧
    (paretoRows l sMax).map (fun x => (x.1, x.2.1)) = paretoCounts l sMax ∧
    List.Pairwise (fun a b => a.2.2 ≤ b.2.2) (paretoRows l sMax) ∧
    (∀ x ∈ paretoRows l sMax, 0 ≤ x.2.2 ∧ x.2.2 ≤ 1) ∧
    (paretoRows l sMax ≠ [] ∧
      ∀ x, (paretoRows l sMax).getLast? = some x → x.2.2 = 1) := by
  have hlenpos : 0 < (badOf l sMax).length := List.length_pos.mpr hne
  have hlong : 0 < (longReasons l sMax).length :=
    lt_of_lt_of_le hlenpos (length_longReasons_ge l sMax)
  have hsum := paretoCounts_sum l sMax
  have hT : 0 < ((paretoCounts l sMax).map (fun p => p.2)).sum := by
    rw [hsum]
    exact hlong
  have hcounts : paretoCounts l sMax = List.insertionSort countGE
      ((longReasons l sMax).dedup.map
        (fun s => (s, (longReasons l sMax).count s))) := rfl
  have hrows : paretoRows l sMax =
      cumShareRows (((paretoCounts l sMax).map (fun p => p.2)).sum) 0
        (paretoCounts l sMax) := rfl
  have hmem : ∀ p ∈ paretoCounts l sMax,
      ∃ s, s ∈ longReasons l sMax ∧ p = (s, (longReasons l sMax).count s) := by
    intro p hp
    rw [hcounts] at hp
    have hp2 := (List.perm_insertionSort countGE _).mem_iff.mp hp
    obtain ⟨s, hs, hps⟩ := List.mem_map.mp hp2
    exact ⟨s, List.mem_dedup.mp hs, hps.symm⟩
  have hcne : paretoCounts l sMax ≠ [] := by
    intro hnil
    rw [hnil] at hT
    simp at hT
  refine ⟨?_, ?_, ?_, ?_, ?_, ?_, ?_, ?_⟩
  · intro p hp
    obtain ⟨s, hs, hps⟩ := hmem p hp
    rw [hps]
    exact ⟨List.count_pos_iff.mpr hs, count_longReasons_le l sMax s⟩
  · rw [hsum]
    exact length_longReasons_ge l sMax
  · rw [hcounts]
    exact List.sorted_insertionSort countGE _
  · rw [hrows]
    exact cumShareRows_map _ _ 0
  · rw [hrows]
    exact cumShareRows_pairwise _ hT _ 0
  · rw [hrows]
    exact cumShareRows_bounds _ hT _ 0 (le_of_eq (Nat.zero_add _))
  · rw [hrows]
    cases hc : paretoCounts l sMax with
    | nil => exact absurd hc hcne
    | cons c rest => exact cumShareRows_ne_nil _ 0 c rest
  · intro x hx
    rw [hrows] at hx
    have := cumShareRows_last _ (paretoCounts l sMax) 0 x hx
    rw [this, Nat.zero_add]
    exact div_self (by exact_mod_cast Nat.pos_iff_ne_zero.mp hT)

/-- Witness for C4 on the single bad night `badNight`. -/
theorem pareto_tally_invariants_witness :
    badOf [badNight] 75 ≠ [] ∧
    ((∀ p ∈ paretoCounts [badNight] 75, 1 ≤ p.2 ∧ p.2 ≤ (badOf [badNight] 75).length) ∧
     (badOf [badNight] 75).length ≤ ((paretoCounts [badNight] 75).map (fun p => p.2)).sum ∧
     List.Sorted countGE (paretoCounts [badNight] 75) ∧
     (paretoRows [badNight] 75).map (fun x => (x.1, x.2.1)) = paretoCounts [badNight] 75 ∧
     List.Pairwise (fun a b => a.2.2 ≤ b.2.2) (paretoRows [badNight] 75) ∧
     (∀ x ∈ paretoRows [badNight] 75, 0 ≤ x.2.2 ∧ x.2.2 ≤ 1) ∧
     (paretoRows [badNight] 75 ≠ [] ∧
       ∀ x, (paretoRows [badNight] 75).getLast? = some x → x.2.2 = 1)) :=
  have hne : badOf [badNight] 75 ≠ [] := List.ne_nil_of_mem mem_badOf_badNight
  ⟨hne, pareto_tally_invariants [badNight] 75 hne⟩

/-- C9 counterexample: for the degenerate window `[zeroDurationNight]`
the aggregated bad day has an undefined awake fraction, yet the
"Woke up a lot" signal fires through the percentile branch
(`minutes_awake = 0 ≥ awake_thr = 0`), so an undefined `awake_pct` does
not prevent the corresponding signal from firing. -/
theorem undefined_sentinel_cex :
    dailyAwakePct (aggDay [zeroDurationNight] 0) = none ∧
    aggDay [zeroDurationNight] 0 ∈ badOf [zeroDurationNight] 75 ∧
    (flagsOf (awakeThr [zeroDurationNight]) (rhrThr [zeroDurationNight])
      (aggDay [zeroDurationNight] 0)).getD 3 ("", false) =
      ("Woke up a lot (awake high)", true) := by
  have hgroup : groupDay [zeroDurationNight] 0 = [zeroDurationNight] := by decide
  have hkeys : dayKeys [zeroDurationNight] = [0] := by decide
  have hawake : (aggDay [zeroDurationNight] 0).minutesAwake = 0 := by
    show ((groupDay [zeroDurationNight] 0).map (fun r => r.minutesAwake)).sum = 0
    rw [hgroup]
    norm_num [zeroDurationNight]
  have hdur : (aggDay [zeroDurationNight] 0).durationMin = 0 := by
    show ((groupDay [zeroDurationNight] 0).map (fun r => r.durationMin)).sum = 0
    rw [hgroup]
    norm_num [zeroDurationNight]
  have hscore : (aggDay [zeroDurationNight] 0).score = 50 := by
    show listMean ((groupDay [zeroDurationNight] 0).map (fun r => r.overallScore)) = 50
    rw [hgroup]
    norm_num [listMean, zeroDurationNight]
  have hpct : dailyAwakePct (aggDay [zeroDurationNight] 0) = none := by
    unfold dailyAwakePct
    rw [hawake, hdur]
    simp [safeDiv]
  have hthr : awakeThr [zeroDurationNight] = some 0 := by
    show quantile75 ((dailyOf [zeroDurationNight]).map (fun x => x.minutesAwake)) = some 0
    have hlist : (dailyOf [zeroDurationNight]).map (fun x => x.minutesAwake) = [0] := by
      rw [dailyOf, hkeys]
      simp [hawake]
    rw [hlist]
    norm_num [quantile75, List.insertionSort, List.orderedInsert]
  refine ⟨hpct, ?_, ?_⟩
  · refine List.mem_filter.mpr ⟨?_, ?_⟩
    · rw [dailyOf, hkeys]
      exact List.mem_singleton.mpr rfl
    · rw [decide_eq_true_eq, hscore]
      norm_num
  · show ("Woke up a lot (awake high)",
      geOpt (aggDay [zeroDurationNight] 0).minutesAwake (awakeThr [zeroDurationNight]) ||
        optGe (dailyAwakePct (aggDay [zeroDurationNight] 0)) (15/100)) = _
    rw [hawake, hthr, hpct]
    simp [geOpt, optGe]

/-- C9 (amended): the divide-by-zero sentinel appears exactly when the
denominator is zero, propagates through the per-day aggregation as an
NA-skipping mean without raising, never fires the low-deep-sleep signal
or the awake-fraction condition when undefined — though the
woke-up-a-lot signal may still fire via its percentile branch. -/
theorem undefined_sentinel_spec (r : SleepRecord) (row : DailyRow)
    (l : List SleepRecord) (d : ℤ) :
    (r.deep_pct = none ↔ r.minutesAsleep = 0) ∧
    (r.rem_pct = none ↔ r.minutesAsleep = 0) ∧
    (r.awake_pct = none ↔ r.durationMin = 0) ∧
    (aggDay l d).deepPct = listMeanOpt ((groupDay l d).map SleepRecord.deep_pct) ∧
    (row.deepPct = none → optLt row.deepPct (12/100) = false) ∧
    (dailyAwakePct row = none → optGe (dailyAwakePct row) (15/100) = false) := by
  have hsafe : ∀ a b : ℚ, (safeDiv a b = none ↔ b = 0) := by
    intro a b
    unfold safeDiv
    split_ifs with h
    · simp [h]
    · simp [h]
  refine ⟨hsafe _ _, hsafe _ _, hsafe _ _, rfl, ?_, ?_⟩
  · intro h
    rw [h]
    rfl
  · intro h
    rw [h]
    rfl

/-- Witness for C9 at the degenerate record and its aggregated day. -/
theorem undefined_sentinel_spec_witness :
    ((zeroDurationNight.deep_pct = none ↔ zeroDurationNight.minutesAsleep = 0) ∧
     (zeroDurationNight.rem_pct = none ↔ zeroDurationNight.minutesAsleep = 0) ∧
     (zeroDurationNight.awake_pct = none ↔ zeroDurationNight.durationMin = 0) ∧
     (aggDay [zeroDurationNight] 0).deepPct =
       listMeanOpt ((groupDay [zeroDurationNight] 0).map SleepRecord.deep_pct) ∧
     ((aggDay [zeroDurationNight] 0).deepPct = none →
       optLt (aggDay [zeroDurationNight] 0).deepPct (12/100) = false) ∧
     (dailyAwakePct (aggDay [zeroDurationNight] 0) = none →
       optGe (dailyAwakePct (aggDay [zeroDurationNight] 0)) (15/100) = false)) ∧
    zeroDurationNight.deep_pct = none ∧
    zeroDurationNight.minutesAsleep = 0 :=
  ⟨undefined_sentinel_spec zeroDurationNight (aggDay [zeroDurationNight] 0)
      [zeroDurationNight] 0,
   by simp [SleepRecord.deep_pct, safeDiv, zeroDurationNight],
   rfl⟩

end SleepDash
